import Mathlib

/-!
Verification of the move-construction state machine and session/state
synchronization logic of the shogi board application (`src/main.rs`).

The controller code under `src/` is embedded faithfully below.  The external
collaborators (the `shogi` crate's `Position` engine and the `base64` crate)
are not part of this repository: the engine is modelled abstractly as an
`Engine` structure whose operations follow the spec's PositionEngine contract,
while the base64 and UTF-8 text layers are modelled concretely (standard
alphabet with padding, standard UTF-8 validity).  Bytes are modelled as `Nat`
values below 256, text as its byte sequence (`List Nat`).
-/

namespace Shogi

/-- Side to move / piece ownership, from the shogi crate's `Color`. -/
inductive Color
  | Black
  | White
deriving DecidableEq

/-- Piece kinds, from the shogi crate's `PieceType`. -/
inductive PieceType
  | King
  | Rook
  | Bishop
  | Gold
  | Silver
  | Knight
  | Lance
  | Pawn
  | ProRook
  | ProBishop
  | ProSilver
  | ProKnight
  | ProLance
  | ProPawn
deriving DecidableEq

/-- A piece: type plus owning color, from the shogi crate's `Piece`. -/
structure Piece where
  piece_type : PieceType
  color : Color
deriving DecidableEq

/-- A board square, identified by file and rank indices (the shogi crate's
`Square`; the `u8` coordinates are modelled as `Nat`). -/
structure Square where
  file : Nat
  rank : Nat
deriving DecidableEq

/-- A move specification, from the shogi crate's `Move`.  `Normal` moves a
board piece (`from` is spelled `fromSq` because `from` is a Lean keyword);
`Drop` places a piece from hand. -/
inductive Move
  | Normal (fromSq : Square) (toSq : Square) (promote : Bool)
  | Drop (piece_type : PieceType) (toSq : Square)
deriving DecidableEq

/-- A recorded move in the position's history, per the spec's data model:
a board-move record `{from, to, promoted, pieceBefore}` or a drop record
`{pieceType, to}`. -/
inductive MoveRecord
  | Normal (fromSq : Square) (toSq : Square) (promoted : Bool) (pieceBefore : Piece)
  | Drop (piece_type : PieceType) (toSq : Square)
deriving DecidableEq

/-- Where a candidate move starts, from `Origin` in `src/main.rs`. -/
inductive Origin
  | SquarePiece (square : Square)
  | HeldPiece (piece_type : PieceType)
deriving DecidableEq

/-- The in-progress move the user is constructing, from `MoveIntentBuilder`
in `src/main.rs` (the `from` field is spelled `fromO`). -/
inductive MoveIntentBuilder
  | NoIntent
  | WithOrigin (fromO : Origin)
  | WithDestination (fromO : Origin) (toS : Square)
deriving DecidableEq

/-- Input events, from `Msg` in `src/main.rs`.  `LoadFromUrl` carries the
current URL hash (read from `window().location().hash()` in the source) as
its byte sequence. -/
inductive Msg
  | ClickSquare (square : Square)
  | ClickHeldPiece (piece_type : PieceType) (color : Color)
  | ChoosePromote (promote : Bool)
  | Restart
  | Undo
  | LoadFromUrl (hash : List Nat)

/-! ### Base64 layer

Modelled from the spec: the reversible text-safe binary encoding used by the
URLStateCodec is the `base64` crate's standard alphabet with `=` padding
(`base64::encode` / `base64::decode` in `src/main.rs`); the crate itself is
an external dependency.  Bytes are `Nat` values; inputs to `b64e` are
sextets (below 64). -/

/-- Encode one sextet (value below 64) to its base64 alphabet byte. -/
def b64e (s : Nat) : Nat :=
  if s < 26 then 65 + s
  else if s < 52 then 71 + s
  else if s < 62 then s - 4
  else if s = 62 then 43
  else 47

/-- Decode one base64 alphabet byte back to its sextet; `none` on a byte
outside the alphabet (including the pad byte 61, handled separately). -/
def b64d (c : Nat) : Option Nat :=
  if 65 ≤ c ∧ c ≤ 90 then some (c - 65)
  else if 97 ≤ c ∧ c ≤ 122 then some (c - 71)
  else if 48 ≤ c ∧ c ≤ 57 then some (c + 4)
  else if c = 43 then some 62
  else if c = 47 then some 63
  else none

/-- Base64-encode a byte sequence (standard alphabet, padded). -/
def base64_encode : List Nat → List Nat
  | [] => []
  | [a] => [b64e (a / 4), b64e (a % 4 * 16), 61, 61]
  | [a, b] => [b64e (a / 4), b64e (a % 4 * 16 + b / 16), b64e (b % 16 * 4), 61]
  | a :: b :: c :: rest =>
      b64e (a / 4) :: b64e (a % 4 * 16 + b / 16) :: b64e (b % 16 * 4 + c / 64)
        :: b64e (c % 64) :: base64_encode rest

/-- Base64-decode a byte sequence; `none` on any malformed input (wrong
length, bytes outside the alphabet, misplaced padding, or nonzero unused
trailing bits, which the crate's default config rejects). -/
def base64_decode : List Nat → Option (List Nat)
  | [] => some []
  | c0 :: c1 :: c2 :: c3 :: rest =>
      match b64d c0, b64d c1 with
      | some s0, some s1 =>
        if c2 = 61 then
          if c3 = 61 ∧ rest = [] ∧ s1 % 16 = 0 then
            some [s0 * 4 + s1 / 16]
          else none
        else
          match b64d c2 with
          | some s2 =>
            if c3 = 61 then
              if rest = [] ∧ s2 % 4 = 0 then
                some [s0 * 4 + s1 / 16, s1 % 16 * 16 + s2 / 4]
              else none
            else
              match b64d c3 with
              | some s3 =>
                (base64_decode rest).map
                  (fun tl => (s0 * 4 + s1 / 16) :: (s1 % 16 * 16 + s2 / 4)
                    :: (s2 % 4 * 64 + s3) :: tl)
              | none => none
          | none => none
      | _, _ => none
  | _ => none

/-! ### UTF-8 layer

Modelled from the spec: `std::str::from_utf8` in `src/main.rs` (Rust
standard library, external to this repository).  A `&str` is its UTF-8 byte
sequence, so decoding validates the bytes and returns them unchanged. -/

/-- Whether a byte is a UTF-8 continuation byte. -/
def utf8_cont (b : Nat) : Bool := 128 ≤ b ∧ b ≤ 191

/-- Standard UTF-8 validity of a byte sequence (rejecting overlong forms,
surrogates, and values above U+10FFFF, as Rust's validator does). -/
def utf8_valid : List Nat → Bool
  | [] => true
  | b0 :: rest =>
    if b0 < 128 then utf8_valid rest
    else if 194 ≤ b0 ∧ b0 ≤ 223 then
      match rest with
      | b1 :: rest' => utf8_cont b1 && utf8_valid rest'
      | [] => false
    else if b0 = 224 then
      match rest with
      | b1 :: b2 :: rest' => (160 ≤ b1 ∧ b1 ≤ 191 : Bool) && utf8_cont b2 && utf8_valid rest'
      | _ => false
    else if 225 ≤ b0 ∧ b0 ≤ 236 then
      match rest with
      | b1 :: b2 :: rest' => utf8_cont b1 && utf8_cont b2 && utf8_valid rest'
      | _ => false
    else if b0 = 237 then
      match rest with
      | b1 :: b2 :: rest' => (128 ≤ b1 ∧ b1 ≤ 159 : Bool) && utf8_cont b2 && utf8_valid rest'
      | _ => false
    else if 238 ≤ b0 ∧ b0 ≤ 239 then
      match rest with
      | b1 :: b2 :: rest' => utf8_cont b1 && utf8_cont b2 && utf8_valid rest'
      | _ => false
    else if b0 = 240 then
      match rest with
      | b1 :: b2 :: b3 :: rest' =>
          (144 ≤ b1 ∧ b1 ≤ 191 : Bool) && utf8_cont b2 && utf8_cont b3 && utf8_valid rest'
      | _ => false
    else if 241 ≤ b0 ∧ b0 ≤ 243 then
      match rest with
      | b1 :: b2 :: b3 :: rest' =>
          utf8_cont b1 && utf8_cont b2 && utf8_cont b3 && utf8_valid rest'
      | _ => false
    else if b0 = 244 then
      match rest with
      | b1 :: b2 :: b3 :: rest' =>
          (128 ≤ b1 ∧ b1 ≤ 143 : Bool) && utf8_cont b2 && utf8_cont b3 && utf8_valid rest'
      | _ => false
    else false

/-- The model of `std::str::from_utf8`: validate the bytes; on success the
resulting string is the same byte sequence. -/
def from_utf8 (bs : List Nat) : Option (List Nat) :=
  if utf8_valid bs then some bs else none

/-! ### The external position engine

Modelled from the spec: the PositionEngine collaborator (the shogi crate's
`Position`, an external dependency).  Its operations are the ones the spec
lists in section 6; since the repository does not contain the crate, the
engine is an abstract structure of operations.  `make_move`, `unmake_move`
and `set_sfen` return `Option` (the crate's `Result`; `none` is an error). -/

structure Engine (Pos : Type) where
  newPos : Pos
  set_sfen : List Nat → Option Pos
  to_sfen : Pos → List Nat
  make_move : Pos → Move → Option Pos
  unmake_move : Pos → Option Pos
  piece_at : Pos → Square → Option Piece
  side_to_move : Pos → Color
  hand : Pos → Piece → Nat
  move_history : Pos → List MoveRecord
  in_check : Pos → Color → Bool

/-- The session state owned by `Model` in `src/main.rs`: the authoritative
position and the in-progress move intent.  The view refs, link, and event
listener fields are presentation-layer plumbing outside the core. -/
structure Session (Pos : Type) where
  position : Pos
  move_intent : MoveIntentBuilder
deriving DecidableEq

/-- Byte sequence of the starting-position literal used by `Model::reset`
in `src/main.rs`:
`lnsgkgsnl/1r5b1/ppppppppp/9/9/9/PPPPPPPPP/1B5R1/LNSGKGSNL b - 1`. -/
def start_sfen : List Nat :=
  [108, 110, 115, 103, 107, 103, 115, 110, 108, 47,
   49, 114, 53, 98, 49, 47,
   112, 112, 112, 112, 112, 112, 112, 112, 112, 47,
   57, 47, 57, 47, 57, 47,
   80, 80, 80, 80, 80, 80, 80, 80, 80, 47,
   49, 66, 53, 82, 49, 47,
   76, 78, 83, 71, 75, 71, 83, 78, 76,
   32, 98, 32, 45, 32, 49]

/-- The piece a candidate origin resolves to, from `Origin::piece` in
`src/main.rs`: the piece on the square for a square origin, or a piece of
the side to move for a hand origin. -/
def Origin.piece {Pos : Type} (E : Engine Pos) (position : Pos) : Origin → Option Piece
  | .SquarePiece fromSquare => E.piece_at position fromSquare
  | .HeldPiece piece_type => some ⟨piece_type, E.side_to_move position⟩

/-- Sandbox construction from `MoveIntentBuilder::create_sandbox` in
`src/main.rs`: a fresh position is built by serializing the current position
and parsing it back.  The source calls `.unwrap()` on the parse; a `none`
here models that panic. -/
def create_sandbox {Pos : Type} (E : Engine Pos) (position : Pos) : Option Pos :=
  E.set_sfen (E.to_sfen position)

/-- Legality probe from `MoveIntentBuilder::can_move_to` in `src/main.rs`.
The second component is the borrowed session position handed back to the
caller (the probe works only on the sandbox); the first is the probe's
answer, `none` modelling a panic (wrong intent state, or sandbox
construction failure inside `.unwrap()`). -/
def can_move_to {Pos : Type} (E : Engine Pos) (self : MoveIntentBuilder)
    (square : Square) (position : Pos) : Option Bool × Pos :=
  match create_sandbox E position with
  | none => (none, position)
  | some sandbox_position =>
    match self with
    | .WithOrigin fromO =>
      let try_moves : List Move :=
        match fromO with
        | .SquarePiece from_square =>
            [Move.Normal from_square square true, Move.Normal from_square square false]
        | .HeldPiece piece_type => [Move.Drop piece_type square]
      (some (try_moves.any fun try_move => (E.make_move sandbox_position try_move).isSome),
        position)
    | _ => (none, position)

/-- Legality probe from `MoveIntentBuilder::must_promote` in `src/main.rs`:
in `WithDestination` with a square origin, true iff the non-promoting
variant fails on a fresh sandbox; drops are always false; any other intent
state panics (`none`). -/
def must_promote {Pos : Type} (E : Engine Pos) (self : MoveIntentBuilder)
    (position : Pos) : Option Bool × Pos :=
  match self with
  | .WithDestination (.SquarePiece fromSq) toS =>
    match create_sandbox E position with
    | none => (none, position)
    | some sandbox_position =>
        (some (E.make_move sandbox_position (Move.Normal fromSq toS false)).isNone, position)
  | .WithDestination (.HeldPiece _) _ => (some false, position)
  | _ => (none, position)

/-- Legality probe from `MoveIntentBuilder::cant_promote` in `src/main.rs`:
in `WithDestination` with a square origin, true iff the promoting variant
fails on a fresh sandbox; drops are always true; any other intent state
panics (`none`). -/
def cant_promote {Pos : Type} (E : Engine Pos) (self : MoveIntentBuilder)
    (position : Pos) : Option Bool × Pos :=
  match self with
  | .WithDestination (.SquarePiece fromSq) toS =>
    match create_sandbox E position with
    | none => (none, position)
    | some sandbox_position =>
        (some (E.make_move sandbox_position (Move.Normal fromSq toS true)).isNone, position)
  | .WithDestination (.HeldPiece _) _ => (some true, position)
  | _ => (none, position)

/-- Promotion-prompt piece from
`MoveIntentBuilder::is_asking_promotion_with_piece` in `src/main.rs`. -/
def is_asking_promotion_with_piece {Pos : Type} (E : Engine Pos)
    (self : MoveIntentBuilder) (position : Pos) : Option Piece :=
  match self with
  | .NoIntent => none
  | .WithOrigin _ => none
  | .WithDestination fromO _ => Origin.piece E position fromO

/-- From `Model::clear_choice` in `src/main.rs`. -/
def clear_choice {Pos : Type} (st : Session Pos) : Session Pos :=
  ⟨st.position, .NoIntent⟩

/-- From `Model::choose_origin` in `src/main.rs`; `none` models the panic in
the `WithDestination` arm. -/
def choose_origin {Pos : Type} (fromO : Origin) (st : Session Pos) :
    Option (Session Pos) :=
  match st.move_intent with
  | .NoIntent => some ⟨st.position, .WithOrigin fromO⟩
  | .WithOrigin _ => some ⟨st.position, .WithOrigin fromO⟩
  | .WithDestination _ _ => none

/-- The resolved move built by `Model::choose_promote` in `src/main.rs`
(its `next_move` local): a board move for a square origin, a drop for a
hand origin. -/
def resolve_move (fromO : Origin) (toS : Square) (promote : Bool) : Move :=
  match fromO with
  | .SquarePiece from_square => Move.Normal from_square toS promote
  | .HeldPiece piece_type => Move.Drop piece_type toS

/-- From `Model::choose_promote` in `src/main.rs`: valid only in
`WithDestination`, where it applies the resolved move (via the engine's
`make_move`, whose `.unwrap()` panic is `none`) and resets the intent to
`NoIntent`; any other state panics (`none`).  The audio cue and the deferred
scroll callback are opaque side effects outside the model. -/
def choose_promote {Pos : Type} (E : Engine Pos) (promote : Bool)
    (st : Session Pos) : Option (Session Pos) :=
  match st.move_intent with
  | .WithDestination fromO toS =>
    match E.make_move st.position (resolve_move fromO toS promote) with
    | none => none
    | some p => some ⟨p, .NoIntent⟩
  | _ => none

/-- From `Model::choose_destination` in `src/main.rs`: records the
destination (panicking in `NoIntent`), then immediately auto-resolves the
promotion when only one option is legal: promote `false` when
`cant_promote`, else promote `true` when `must_promote`, else stay in
`WithDestination`. -/
def choose_destination {Pos : Type} (E : Engine Pos) (toS : Square)
    (st : Session Pos) : Option (Session Pos) :=
  match st.move_intent with
  | .NoIntent => none
  | .WithOrigin fromO | .WithDestination fromO _ =>
    let st1 : Session Pos := ⟨st.position, .WithDestination fromO toS⟩
    match cant_promote E st1.move_intent st1.position with
    | (none, _) => none
    | (some true, pos1) => choose_promote E false ⟨pos1, st1.move_intent⟩
    | (some false, pos1) =>
      match must_promote E st1.move_intent pos1 with
      | (none, _) => none
      | (some true, pos2) => choose_promote E true ⟨pos2, st1.move_intent⟩
      | (some false, pos2) => some ⟨pos2, st1.move_intent⟩

/-- From `Model::reset` in `src/main.rs`: replace the position with the
standard starting arrangement parsed from `start_sfen` (`none` models the
`.expect` panic).  The move intent is not touched by the source. -/
def reset {Pos : Type} (E : Engine Pos) (st : Session Pos) :
    Option (Session Pos) :=
  match E.set_sfen start_sfen with
  | none => none
  | some p => some ⟨p, st.move_intent⟩

/-- From `Model::try_load_from_url` in `src/main.rs`: decode the URL hash
(base64, then UTF-8, then the engine's `set_sfen`).  The boolean is the
`Result` (`true` = `Ok`).  Faithful to the source, the position is replaced
by `Position::new()` (`E.newPos`) before `set_sfen` runs, so a grammar
failure leaves that fresh position behind.  The move intent is never
touched. -/
def try_load_from_url {Pos : Type} (E : Engine Pos) (hash : List Nat)
    (st : Session Pos) : Bool × Session Pos :=
  if hash = [] then (false, st)
  else
    let hash_tail := hash.drop 1
    match base64_decode hash_tail with
    | none => (false, st)
    | some decoded =>
      match from_utf8 decoded with
      | none => (false, st)
      | some sfen =>
        let st1 : Session Pos := ⟨E.newPos, st.move_intent⟩
        match E.set_sfen sfen with
        | none => (false, st1)
        | some p => (true, ⟨p, st1.move_intent⟩)

/-- From `Model::undo` in `src/main.rs`: `unmake_move` with `.unwrap()`
(`none` models the panic on an empty history).  The move intent is not
touched by the source. -/
def undo {Pos : Type} (E : Engine Pos) (st : Session Pos) :
    Option (Session Pos) :=
  match E.unmake_move st.position with
  | none => none
  | some p => some ⟨p, st.move_intent⟩

/-- The event dispatcher from `Model::update` in `src/main.rs`; `none`
models a panic reached while handling the message. -/
def update {Pos : Type} (E : Engine Pos) (msg : Msg) (st : Session Pos) :
    Option (Session Pos) :=
  match msg with
  | .ClickSquare square =>
    match st.move_intent with
    | .NoIntent =>
      match E.piece_at st.position square with
      | some piece =>
        if piece.color = E.side_to_move st.position then
          choose_origin (.SquarePiece square) st
        else
          some st
      | none => some st
    | .WithOrigin _ =>
      match can_move_to E st.move_intent square st.position with
      | (none, _) => none
      | (some true, pos1) => choose_destination E square ⟨pos1, st.move_intent⟩
      | (some false, pos1) => some (clear_choice ⟨pos1, st.move_intent⟩)
    | .WithDestination _ _ => some (clear_choice st)
  | .ClickHeldPiece piece_type color =>
    match st.move_intent with
    | .NoIntent =>
      if color = E.side_to_move st.position
          ∧ E.hand st.position ⟨piece_type, color⟩ > 0 then
        choose_origin (.HeldPiece piece_type) st
      else
        some (clear_choice st)
    | .WithOrigin _ => some (clear_choice st)
    | .WithDestination _ _ => some (clear_choice st)
  | .ChoosePromote promote => choose_promote E promote st
  | .Restart => reset E st
  | .Undo => undo E st
  | .LoadFromUrl hash => some (try_load_from_url E hash st).2

/-- The URL fragment written by `Model::view` in `src/main.rs`:
`#` (byte 35) followed by the base64 encoding of the serialized position. -/
def encode_fragment {Pos : Type} (E : Engine Pos) (p : Pos) : List Nat :=
  35 :: base64_encode (E.to_sfen p)

/-! ### A concrete engine instance

A small executable engine used to instantiate the generic theorems at
concrete inputs.  A position is its move history; serialization appends a
fixed-width encoding of the moves to the starting-position text, mirroring
the engine's `sfen ... moves ...` form; promotion is legal only into rank 0,
giving both promotable and unpromotable moves. -/

/-- Numeric code of a piece type, for the concrete engine's serialization. -/
def toy_pt_code : PieceType → Nat
  | .King => 0
  | .Rook => 1
  | .Bishop => 2
  | .Gold => 3
  | .Silver => 4
  | .Knight => 5
  | .Lance => 6
  | .Pawn => 7
  | .ProRook => 8
  | .ProBishop => 9
  | .ProSilver => 10
  | .ProKnight => 11
  | .ProLance => 12
  | .ProPawn => 13

/-- Inverse of `toy_pt_code`. -/
def toy_pt_of_code : Nat → Option PieceType
  | 0 => some .King
  | 1 => some .Rook
  | 2 => some .Bishop
  | 3 => some .Gold
  | 4 => some .Silver
  | 5 => some .Knight
  | 6 => some .Lance
  | 7 => some .Pawn
  | 8 => some .ProRook
  | 9 => some .ProBishop
  | 10 => some .ProSilver
  | 11 => some .ProKnight
  | 12 => some .ProLance
  | 13 => some .ProPawn
  | _ => none

/-- Fixed-width byte encoding of one move for the concrete engine. -/
def toy_encode_move : Move → List Nat
  | .Normal f t pr => [0, f.file, f.rank, t.file, t.rank, if pr then 1 else 0]
  | .Drop pt t => [1, toy_pt_code pt, t.file, t.rank, 0, 0]

/-- Parse a sequence of fixed-width move encodings for the concrete engine. -/
def toy_decode_moves : List Nat → Option (List Move)
  | [] => some []
  | 0 :: ff :: fr :: tf :: tr :: pr :: rest =>
      (toy_decode_moves rest).map
        (fun tl => Move.Normal ⟨ff, fr⟩ ⟨tf, tr⟩ (pr = 1) :: tl)
  | 1 :: pc :: tf :: tr :: _ :: _ :: rest =>
      match toy_pt_of_code pc with
      | some pt => (toy_decode_moves rest).map (fun tl => Move.Drop pt ⟨tf, tr⟩ :: tl)
      | none => none
  | _ => none

/-- The history entry the concrete engine records for a move. -/
def toy_record : Move → MoveRecord
  | .Normal f t pr => .Normal f t pr ⟨.Pawn, .Black⟩
  | .Drop pt t => .Drop pt t

/-- The concrete engine instance: a position is its move list. -/
def toyEngine : Engine (List Move) where
  newPos := []
  set_sfen := fun bs =>
    if bs.take start_sfen.length = start_sfen then
      toy_decode_moves (bs.drop start_sfen.length)
    else none
  to_sfen := fun p => start_sfen ++ (p.map toy_encode_move).flatten
  make_move := fun p m =>
    match m with
    | .Normal _ t pr => if pr = true ∧ t.rank ≠ 0 then none else some (p ++ [m])
    | .Drop _ _ => some (p ++ [m])
  unmake_move := fun p =>
    match p with
    | [] => none
    | _ :: _ => some p.dropLast
  piece_at := fun _ _ => none
  side_to_move := fun p => if p.length % 2 = 0 then .Black else .White
  hand := fun _ _ => 1
  move_history := fun p => p.map toy_record
  in_check := fun _ _ => false

/-! ### Helper lemmas -/

theorem b64d_b64e {s : Nat} (h : s < 64) : b64d (b64e s) = some s := by
  interval_cases s <;> decide

theorem b64e_ne_pad {s : Nat} (h : s < 64) : b64e s ≠ 61 := by
  interval_cases s <;> decide

theorem base64_decode_encode :
    ∀ bs : List Nat, (∀ b ∈ bs, b < 256) →
      base64_decode (base64_encode bs) = some bs := by
  have key : ∀ n : Nat, ∀ bs : List Nat, bs.length ≤ n → (∀ b ∈ bs, b < 256) →
      base64_decode (base64_encode bs) = some bs := by
    intro n
    induction n with
    | zero =>
      intro bs hlen _
      have : bs = [] := List.length_eq_zero.mp (Nat.le_zero.mp hlen)
      subst this
      rfl
    | succ n ih =>
      intro bs hlen hmem
      match bs with
      | [] => rfl
      | [a] =>
        have ha : a < 256 := hmem a (by simp)
        rw [base64_encode, base64_decode]
        rw [b64d_b64e (show a / 4 < 64 by omega),
          b64d_b64e (show a % 4 * 16 < 64 by omega)]
        dsimp only
        rw [if_pos rfl, if_pos (show (61 : Nat) = 61 ∧ ([] : List Nat) = []
          ∧ a % 4 * 16 % 16 = 0 from ⟨rfl, rfl, by omega⟩)]
        simp only [Option.some.injEq, List.cons.injEq, and_true]
        omega
      | [a, b] =>
        have ha : a < 256 := hmem a (by simp)
        have hb : b < 256 := hmem b (by simp)
        rw [base64_encode, base64_decode]
        rw [b64d_b64e (show a / 4 < 64 by omega),
          b64d_b64e (show a % 4 * 16 + b / 16 < 64 by omega),
          b64d_b64e (show b % 16 * 4 < 64 by omega)]
        dsimp only
        rw [if_neg (b64e_ne_pad (show b % 16 * 4 < 64 by omega))]
        rw [if_pos rfl, if_pos (show ([] : List Nat) = []
          ∧ b % 16 * 4 % 4 = 0 from ⟨rfl, by omega⟩)]
        simp only [Option.some.injEq, List.cons.injEq, and_true]
        omega
      | a :: b :: c :: rest =>
        have ha : a < 256 := hmem a (by simp)
        have hb : b < 256 := hmem b (by simp)
        have hc : c < 256 := hmem c (by simp)
        have hrest : ∀ x ∈ rest, x < 256 := by
          intro x hx
          exact hmem x (by simp [hx])
        have hlen' : rest.length ≤ n := by
          simp only [List.length_cons] at hlen
          omega
        rw [base64_encode, base64_decode]
        rw [b64d_b64e (show a / 4 < 64 by omega),
          b64d_b64e (show a % 4 * 16 + b / 16 < 64 by omega),
          b64d_b64e (show b % 16 * 4 + c / 64 < 64 by omega),
          b64d_b64e (show c % 64 < 64 by omega)]
        dsimp only
        rw [if_neg (b64e_ne_pad (show b % 16 * 4 + c / 64 < 64 by omega))]
        rw [if_neg (b64e_ne_pad (show c % 64 < 64 by omega))]
        rw [ih rest hlen' hrest]
        simp only [Option.map_some', Option.some.injEq, List.cons.injEq, and_true]
        omega
  intro bs hmem
  exact key bs.length bs le_rfl hmem

theorem from_utf8_of_valid {bs : List Nat} (h : utf8_valid bs = true) :
    from_utf8 bs = some bs := by
  simp [from_utf8, h]

/-- Helper: the answer of `can_move_to` for a square origin, as a map over
the sandbox. -/
theorem can_move_to_square_eq {Pos : Type} (E : Engine Pos) (fromSq square : Square)
    (position : Pos) :
    (can_move_to E (.WithOrigin (.SquarePiece fromSq)) square position).1
      = (create_sandbox E position).map
          (fun sb => (E.make_move sb (Move.Normal fromSq square true)).isSome
            || (E.make_move sb (Move.Normal fromSq square false)).isSome) := by
  rw [can_move_to]
  cases hc : create_sandbox E position with
  | none => rfl
  | some sandbox => simp [List.any_cons, List.any_nil]

/-- Helper: the answer of `can_move_to` for a hand origin, as a map over the
sandbox. -/
theorem can_move_to_drop_eq {Pos : Type} (E : Engine Pos) (piece_type : PieceType)
    (square : Square) (position : Pos) :
    (can_move_to E (.WithOrigin (.HeldPiece piece_type)) square position).1
      = (create_sandbox E position).map
          (fun sb => (E.make_move sb (Move.Drop piece_type square)).isSome) := by
  rw [can_move_to]
  cases hc : create_sandbox E position with
  | none => rfl
  | some sandbox => simp [List.any_cons, List.any_nil]

/-- Helper: the answer of `must_promote` for a square origin, as a map over
the sandbox. -/
theorem must_promote_square_eq {Pos : Type} (E : Engine Pos) (fromSq toS : Square)
    (position : Pos) :
    (must_promote E (.WithDestination (.SquarePiece fromSq) toS) position).1
      = (create_sandbox E position).map
          (fun sb => (E.make_move sb (Move.Normal fromSq toS false)).isNone) := by
  rw [must_promote]
  cases hc : create_sandbox E position with
  | none => rfl
  | some sandbox => rfl

/-- Helper: the answer of `cant_promote` for a square origin, as a map over
the sandbox. -/
theorem cant_promote_square_eq {Pos : Type} (E : Engine Pos) (fromSq toS : Square)
    (position : Pos) :
    (cant_promote E (.WithDestination (.SquarePiece fromSq) toS) position).1
      = (create_sandbox E position).map
          (fun sb => (E.make_move sb (Move.Normal fromSq toS true)).isNone) := by
  rw [cant_promote]
  cases hc : create_sandbox E position with
  | none => rfl
  | some sandbox => rfl

theorem toy_unmake_none_iff (p : List Move) :
    toyEngine.unmake_move p = none ↔ toyEngine.move_history p = [] := by
  cases p <;> simp [toyEngine]

theorem toy_unmake_dropLast (p q : List Move)
    (h : toyEngine.unmake_move p = some q) :
    toyEngine.move_history q = (toyEngine.move_history p).dropLast := by
  cases p with
  | nil => simp [toyEngine] at h
  | cons a tl =>
    simp only [toyEngine, Option.some.injEq] at h
    subst h
    simp [toyEngine, List.map_dropLast]

/-! ### Claims -/

/-- Claim C1: for every position the engine serializes back to itself (the
spec's PositionEngine contract on reachable positions, with the serialized
text valid UTF-8 made of bytes), loading the URL fragment produced by
`Model::view`'s encoding through `Model::try_load_from_url` succeeds and
restores exactly that position — `decode(encode(position)) == position`,
move history included, since `set_sfen` returns the full original
position. -/
theorem c1_url_roundtrip {Pos : Type} (E : Engine Pos) (p : Pos) (st : Session Pos)
    (hb : ∀ b ∈ E.to_sfen p, b < 256)
    (hv : utf8_valid (E.to_sfen p) = true)
    (hrt : E.set_sfen (E.to_sfen p) = some p) :
    try_load_from_url E (encode_fragment E p) st = (true, ⟨p, st.move_intent⟩) := by
  have hne : (35 :: base64_encode (E.to_sfen p) : List Nat) ≠ [] := by simp
  rw [encode_fragment, try_load_from_url, if_neg hne]
  simp only [List.drop_succ_cons, List.drop_zero]
  rw [base64_decode_encode _ hb]
  dsimp only
  rw [from_utf8_of_valid hv]
  dsimp only
  rw [hrt]

/-- Witness for C1 at the concrete engine and a one-move position. -/
theorem c1_url_roundtrip_witness :
    (∀ b ∈ toyEngine.to_sfen [Move.Drop .Pawn ⟨4, 4⟩], b < 256)
    ∧ utf8_valid (toyEngine.to_sfen [Move.Drop .Pawn ⟨4, 4⟩]) = true
    ∧ toyEngine.set_sfen (toyEngine.to_sfen [Move.Drop .Pawn ⟨4, 4⟩])
        = some [Move.Drop .Pawn ⟨4, 4⟩]
    ∧ try_load_from_url toyEngine
        (encode_fragment toyEngine [Move.Drop .Pawn ⟨4, 4⟩]) ⟨[], .NoIntent⟩
      = (true, ⟨[Move.Drop .Pawn ⟨4, 4⟩], .NoIntent⟩) :=
  ⟨by decide, by decide, by decide,
    c1_url_roundtrip toyEngine [Move.Drop .Pawn ⟨4, 4⟩] ⟨[], .NoIntent⟩
      (by decide) (by decide) (by decide)⟩

/-- Helper: `try_load_from_url` never touches the move intent. -/
theorem try_load_intent_frame {Pos : Type} (E : Engine Pos) (hash : List Nat)
    (st : Session Pos) :
    (try_load_from_url E hash st).2.move_intent = st.move_intent := by
  rw [try_load_from_url]
  split
  · rfl
  · dsimp only
    split
    · rfl
    · split
      · rfl
      · split <;> rfl

/-- Claim C2 (amended): a decode failure never touches the MoveIntent, and a
failure at the missing-hash, base64, or UTF-8 stage leaves the whole session
exactly as it was; but a failure at the serialized-position-grammar stage
(`set_sfen`) returns the error with the Position already replaced by a fresh
`Position::new()`, because `Model::try_load_from_url` overwrites
`self.position` before parsing. -/
theorem c2_decode_failure_frame {Pos : Type} (E : Engine Pos) (hash : List Nat)
    (st : Session Pos) :
    (hash = [] → try_load_from_url E hash st = (false, st))
    ∧ (hash ≠ [] → base64_decode (hash.drop 1) = none →
        try_load_from_url E hash st = (false, st))
    ∧ (∀ decoded, hash ≠ [] → base64_decode (hash.drop 1) = some decoded →
        from_utf8 decoded = none → try_load_from_url E hash st = (false, st))
    ∧ (∀ decoded sfen, hash ≠ [] → base64_decode (hash.drop 1) = some decoded →
        from_utf8 decoded = some sfen → E.set_sfen sfen = none →
        try_load_from_url E hash st = (false, ⟨E.newPos, st.move_intent⟩))
    ∧ ((try_load_from_url E hash st).2.move_intent = st.move_intent) := by
  refine ⟨?_, ?_, ?_, ?_, ?_⟩
  · intro h
    rw [try_load_from_url, if_pos h]
  · intro hne hdec
    rw [try_load_from_url, if_neg hne]
    dsimp only
    rw [hdec]
  · intro decoded hne hdec hutf
    rw [try_load_from_url, if_neg hne]
    dsimp only
    rw [hdec]
    dsimp only
    rw [hutf]
  · intro decoded sfen hne hdec hutf hsfen
    rw [try_load_from_url, if_neg hne]
    dsimp only
    rw [hdec]
    dsimp only
    rw [hutf]
    dsimp only
    rw [hsfen]
  · exact try_load_intent_frame E hash st

/-- Witness for the amended C2 at the concrete engine: an empty hash is
rejected with the session untouched, and a grammar-stage failure is
rejected with the position reset to the fresh empty one. -/
theorem c2_decode_failure_frame_witness :
    try_load_from_url toyEngine [] ⟨[], .NoIntent⟩ = (false, ⟨[], .NoIntent⟩)
    ∧ try_load_from_url toyEngine (35 :: base64_encode [0])
        ⟨[Move.Drop .Pawn ⟨4, 4⟩], .NoIntent⟩
      = (false, ⟨[], .NoIntent⟩) :=
  ⟨(c2_decode_failure_frame toyEngine [] ⟨[], .NoIntent⟩).1 rfl,
    (c2_decode_failure_frame toyEngine (35 :: base64_encode [0])
        ⟨[Move.Drop .Pawn ⟨4, 4⟩], .NoIntent⟩).2.2.2.1 [0] [0]
      (by decide) (by decide) (by decide) (by decide)⟩

/-- Counterexample to C2 as stated: a fragment whose base64 and UTF-8 layers
decode but whose serialized-position text is rejected makes
`try_load_from_url` report failure while the Position has been mutated away
from its prior value (it is now the fresh empty position). -/
theorem c2_counterexample :
    (try_load_from_url toyEngine (35 :: base64_encode [0])
        ⟨[Move.Drop .Pawn ⟨4, 4⟩], .NoIntent⟩).1 = false
    ∧ (try_load_from_url toyEngine (35 :: base64_encode [0])
        ⟨[Move.Drop .Pawn ⟨4, 4⟩], .NoIntent⟩).2.position
      ≠ [Move.Drop .Pawn ⟨4, 4⟩] := by
  decide

/-- Claim C3 (amended): the MoveIntent is reset to `NoIntent` by move
completion (`choose_promote`) and by cancellation (`clear_choice`), but
undo, restart, and external reload leave the MoveIntent exactly as it was:
`Model::undo`, `Model::reset` and `Model::try_load_from_url` never touch
`self.move_intent`. -/
theorem c3_intent_after_events {Pos : Type} (E : Engine Pos) (st : Session Pos) :
    (∀ promote st', choose_promote E promote st = some st' →
        st'.move_intent = .NoIntent)
    ∧ ((clear_choice st).move_intent = .NoIntent)
    ∧ (∀ st', update E .Undo st = some st' → st'.move_intent = st.move_intent)
    ∧ (∀ st', update E .Restart st = some st' → st'.move_intent = st.move_intent)
    ∧ (∀ hash st', update E (.LoadFromUrl hash) st = some st' →
        st'.move_intent = st.move_intent)
    ∧ (∀ square fromO toS, st.move_intent = .WithDestination fromO toS →
        update E (.ClickSquare square) st = some (clear_choice st)) := by
  refine ⟨?_, rfl, ?_, ?_, ?_, ?_⟩
  · intro promote st' h
    rw [choose_promote] at h
    split at h
    · split at h
      · exact absurd h (by simp)
      · simp only [Option.some.injEq] at h
        rw [← h]
    · exact absurd h (by simp)
  · intro st' h
    rw [update, undo] at h
    split at h
    · exact absurd h (by simp)
    · simp only [Option.some.injEq] at h
      rw [← h]
  · intro st' h
    rw [update, reset] at h
    split at h
    · exact absurd h (by simp)
    · simp only [Option.some.injEq] at h
      rw [← h]
  · intro hash st' h
    rw [update] at h
    simp only [Option.some.injEq] at h
    rw [← h]
    exact try_load_intent_frame E hash st
  · intro square fromO toS h
    rw [update, h]

/-- Witness for the amended C3 at the concrete engine: a completed move and
a cancelling click reset the intent, while undo, restart and reload leave a
pending intent in place. -/
theorem c3_intent_after_events_witness :
    (Session.move_intent ⟨[Move.Normal ⟨1, 1⟩ ⟨2, 2⟩ false], .NoIntent⟩
        = MoveIntentBuilder.NoIntent)
    ∧ (Session.move_intent ⟨([] : List Move), .WithOrigin (.SquarePiece ⟨0, 0⟩)⟩
        = Session.move_intent
            ⟨[Move.Drop .Pawn ⟨4, 4⟩], .WithOrigin (.SquarePiece ⟨0, 0⟩)⟩)
    ∧ update toyEngine (.ClickSquare ⟨3, 3⟩)
        ⟨([] : List Move), .WithDestination (.SquarePiece ⟨1, 1⟩) ⟨2, 2⟩⟩
      = some (clear_choice ⟨[], .WithDestination (.SquarePiece ⟨1, 1⟩) ⟨2, 2⟩⟩) :=
  ⟨(c3_intent_after_events toyEngine
      ⟨[], .WithDestination (.SquarePiece ⟨1, 1⟩) ⟨2, 2⟩⟩).1 false
      ⟨[Move.Normal ⟨1, 1⟩ ⟨2, 2⟩ false], .NoIntent⟩ (by decide),
    (c3_intent_after_events toyEngine
      ⟨[Move.Drop .Pawn ⟨4, 4⟩], .WithOrigin (.SquarePiece ⟨0, 0⟩)⟩).2.2.1
      ⟨[], .WithOrigin (.SquarePiece ⟨0, 0⟩)⟩ (by decide),
    (c3_intent_after_events toyEngine
      ⟨([] : List Move), .WithDestination (.SquarePiece ⟨1, 1⟩) ⟨2, 2⟩⟩).2.2.2.2.2
      ⟨3, 3⟩ (.SquarePiece ⟨1, 1⟩) ⟨2, 2⟩ rfl⟩

/-- Counterexample to C3 as stated: a restart arriving in `WithOrigin`
completes, yet leaves the MoveIntent still `WithOrigin`, not `NoIntent`. -/
theorem c3_counterexample :
    update toyEngine .Restart ⟨[], .WithOrigin (.SquarePiece ⟨0, 0⟩)⟩
      = some ⟨[], .WithOrigin (.SquarePiece ⟨0, 0⟩)⟩
    ∧ (MoveIntentBuilder.WithOrigin (.SquarePiece ⟨0, 0⟩)) ≠ .NoIntent := by
  decide

/-- Claim C4: the legality probes hand the borrowed session position back
unchanged, and their answers depend on the position only through the
freshly constructed disposable sandbox copy (`create_sandbox`): two
positions with the same sandbox get the same answers. -/
theorem c4_probes_frame {Pos : Type} (E : Engine Pos) (self : MoveIntentBuilder)
    (square : Square) (position pos' : Pos) :
    ((can_move_to E self square position).2 = position)
    ∧ ((must_promote E self position).2 = position)
    ∧ ((cant_promote E self position).2 = position)
    ∧ (create_sandbox E position = create_sandbox E pos' →
        (can_move_to E self square position).1 = (can_move_to E self square pos').1
        ∧ (must_promote E self position).1 = (must_promote E self pos').1
        ∧ (cant_promote E self position).1 = (cant_promote E self pos').1) := by
  refine ⟨?_, ?_, ?_, ?_⟩
  · rw [can_move_to]
    cases hc : create_sandbox E position with
    | none => rfl
    | some sandbox => cases self <;> rfl
  · cases self with
    | NoIntent => rfl
    | WithOrigin fromO => rfl
    | WithDestination fromO toS2 =>
      cases fromO with
      | HeldPiece piece_type => rfl
      | SquarePiece fromSq =>
        rw [must_promote]
        cases hc : create_sandbox E position <;> rfl
  · cases self with
    | NoIntent => rfl
    | WithOrigin fromO => rfl
    | WithDestination fromO toS2 =>
      cases fromO with
      | HeldPiece piece_type => rfl
      | SquarePiece fromSq =>
        rw [cant_promote]
        cases hc : create_sandbox E position <;> rfl
  · intro hsb
    refine ⟨?_, ?_, ?_⟩
    · rw [can_move_to, can_move_to, hsb]
      cases hc : create_sandbox E pos' with
      | none => rfl
      | some sandbox => cases self <;> rfl
    · cases self with
      | NoIntent => rfl
      | WithOrigin fromO => rfl
      | WithDestination fromO toS2 =>
        cases fromO with
        | HeldPiece piece_type => rfl
        | SquarePiece fromSq =>
          rw [must_promote_square_eq, must_promote_square_eq, hsb]
    · cases self with
      | NoIntent => rfl
      | WithOrigin fromO => rfl
      | WithDestination fromO toS2 =>
        cases fromO with
        | HeldPiece piece_type => rfl
        | SquarePiece fromSq =>
          rw [cant_promote_square_eq, cant_promote_square_eq, hsb]

/-- Witness for C4 at the concrete engine. -/
theorem c4_probes_frame_witness :
    ((can_move_to toyEngine (.WithOrigin (.SquarePiece ⟨1, 1⟩)) ⟨2, 2⟩
        ([] : List Move)).2 = [])
    ∧ ((must_promote toyEngine (.WithOrigin (.SquarePiece ⟨1, 1⟩))
        ([] : List Move)).2 = [])
    ∧ ((cant_promote toyEngine (.WithOrigin (.SquarePiece ⟨1, 1⟩))
        ([] : List Move)).2 = [])
    ∧ ((can_move_to toyEngine (.WithOrigin (.SquarePiece ⟨1, 1⟩)) ⟨2, 2⟩
          ([] : List Move)).1
        = (can_move_to toyEngine (.WithOrigin (.SquarePiece ⟨1, 1⟩)) ⟨2, 2⟩
          ([] : List Move)).1) :=
  have h := c4_probes_frame toyEngine (.WithOrigin (.SquarePiece ⟨1, 1⟩)) ⟨2, 2⟩
    ([] : List Move) ([] : List Move)
  ⟨h.1, h.2.1, h.2.2.1, (h.2.2.2 rfl).1⟩

/-- Claim C5: whenever `can_move_to` already answered true for an origin and
destination, `must_promote` and `cant_promote` cannot both answer true for
that same origin, destination and position — at least one promotion variant
is legal on the sandbox. -/
theorem c5_not_both_forced {Pos : Type} (E : Engine Pos) (fromO : Origin)
    (toS : Square) (position : Pos)
    (h : (can_move_to E (.WithOrigin fromO) toS position).1 = some true) :
    ¬((must_promote E (.WithDestination fromO toS) position).1 = some true
      ∧ (cant_promote E (.WithDestination fromO toS) position).1 = some true) := by
  rintro ⟨hmust, hcant⟩
  cases fromO with
  | SquarePiece fromSq =>
    rw [can_move_to_square_eq] at h
    rw [must_promote_square_eq] at hmust
    rw [cant_promote_square_eq] at hcant
    rcases Option.map_eq_some'.mp h with ⟨sandbox, hsb, hf⟩
    rw [hsb, Option.map_some', Option.some.injEq] at hmust hcant
    rw [Option.isNone_iff_eq_none] at hmust hcant
    rw [hmust, hcant] at hf
    simp at hf
  | HeldPiece piece_type =>
    simp [must_promote] at hmust

/-- Witness for C5 at the concrete engine. -/
theorem c5_not_both_forced_witness :
    (can_move_to toyEngine (.WithOrigin (.SquarePiece ⟨1, 1⟩)) ⟨2, 0⟩
        ([] : List Move)).1 = some true
    ∧ ¬((must_promote toyEngine (.WithDestination (.SquarePiece ⟨1, 1⟩) ⟨2, 0⟩)
          ([] : List Move)).1 = some true
        ∧ (cant_promote toyEngine (.WithDestination (.SquarePiece ⟨1, 1⟩) ⟨2, 0⟩)
          ([] : List Move)).1 = some true) :=
  ⟨by decide, c5_not_both_forced toyEngine (.SquarePiece ⟨1, 1⟩) ⟨2, 0⟩ [] (by decide)⟩

/-- Claim C6: given the sandbox copy of the position, `can_move_to` for a
square origin answers true exactly when the promoting variant (tried first)
or the non-promoting variant of the move succeeds on that copy, and for a
hand origin exactly when the drop succeeds on that copy. -/
theorem c6_can_move_to_spec {Pos : Type} (E : Engine Pos) (square : Square)
    (position sb : Pos) (hsb : create_sandbox E position = some sb) :
    (∀ from_square,
      (can_move_to E (.WithOrigin (.SquarePiece from_square)) square position).1
        = some ((E.make_move sb (Move.Normal from_square square true)).isSome
            || (E.make_move sb (Move.Normal from_square square false)).isSome))
    ∧ (∀ piece_type,
      (can_move_to E (.WithOrigin (.HeldPiece piece_type)) square position).1
        = some (E.make_move sb (Move.Drop piece_type square)).isSome) := by
  constructor
  · intro from_square
    rw [can_move_to_square_eq, hsb, Option.map_some']
  · intro piece_type
    rw [can_move_to_drop_eq, hsb, Option.map_some']

/-- Witness for C6 at the concrete engine. -/
theorem c6_can_move_to_spec_witness :
    create_sandbox toyEngine ([] : List Move) = some []
    ∧ (can_move_to toyEngine (.WithOrigin (.SquarePiece ⟨1, 1⟩)) ⟨2, 2⟩
        ([] : List Move)).1
      = some ((toyEngine.make_move [] (Move.Normal ⟨1, 1⟩ ⟨2, 2⟩ true)).isSome
          || (toyEngine.make_move [] (Move.Normal ⟨1, 1⟩ ⟨2, 2⟩ false)).isSome)
    ∧ (can_move_to toyEngine (.WithOrigin (.HeldPiece .Pawn)) ⟨2, 2⟩
        ([] : List Move)).1
      = some (toyEngine.make_move [] (Move.Drop .Pawn ⟨2, 2⟩)).isSome :=
  ⟨by decide,
    (c6_can_move_to_spec toyEngine ⟨2, 2⟩ [] [] (by decide)).1 ⟨1, 1⟩,
    (c6_can_move_to_spec toyEngine ⟨2, 2⟩ [] [] (by decide)).2 .Pawn⟩

/-- Claim C7 (amended): for a board move whose only legal completion is
non-promoting, `must_promote` is false but `cant_promote` is true (not
false, as claimed: the promoting variant fails on the sandbox, and that
truth is precisely what drives the shortcut), and selecting the destination
auto-resolves the move with promote false, ending in `NoIntent` with no
promotion prompt shown. -/
theorem c7_forced_nonpromoting {Pos : Type} (E : Engine Pos)
    (from_square toS : Square) (position sb : Pos)
    (hsb : create_sandbox E position = some sb)
    (hok : (E.make_move sb (Move.Normal from_square toS false)).isSome = true)
    (hbad : E.make_move sb (Move.Normal from_square toS true) = none) :
    (must_promote E (.WithDestination (.SquarePiece from_square) toS) position).1
      = some false
    ∧ (cant_promote E (.WithDestination (.SquarePiece from_square) toS) position).1
      = some true
    ∧ (∀ q, E.make_move position (Move.Normal from_square toS false) = some q →
        choose_destination E toS ⟨position, .WithOrigin (.SquarePiece from_square)⟩
          = some ⟨q, .NoIntent⟩
        ∧ is_asking_promotion_with_piece E .NoIntent q = none) := by
  have hpair : cant_promote E (.WithDestination (.SquarePiece from_square) toS) position
      = (some true, position) := by
    rw [cant_promote, hsb]
    dsimp only
    rw [hbad]
    rfl
  refine ⟨?_, ?_, ?_⟩
  · rw [must_promote_square_eq, hsb, Option.map_some']
    cases hF : E.make_move sb (Move.Normal from_square toS false) with
    | none =>
      rw [hF] at hok
      simp at hok
    | some q => rfl
  · rw [hpair]
  · intro q hq
    refine ⟨?_, rfl⟩
    rw [choose_destination]
    dsimp only
    rw [hpair]
    dsimp only
    rw [choose_promote]
    dsimp only [resolve_move]
    rw [hq]

/-- Counterexample to C7 as stated: at a move whose only legal completion is
non-promoting, `cant_promote` answers true, not false. -/
theorem c7_counterexample :
    create_sandbox toyEngine ([] : List Move) = some []
    ∧ (toyEngine.make_move [] (Move.Normal ⟨1, 1⟩ ⟨2, 2⟩ false)).isSome = true
    ∧ toyEngine.make_move [] (Move.Normal ⟨1, 1⟩ ⟨2, 2⟩ true) = none
    ∧ (cant_promote toyEngine (.WithDestination (.SquarePiece ⟨1, 1⟩) ⟨2, 2⟩)
        ([] : List Move)).1 ≠ some false := by
  decide

/-- Witness for the amended C7 at the concrete engine. -/
theorem c7_forced_nonpromoting_witness :
    (must_promote toyEngine (.WithDestination (.SquarePiece ⟨1, 1⟩) ⟨2, 2⟩)
        ([] : List Move)).1 = some false
    ∧ (cant_promote toyEngine (.WithDestination (.SquarePiece ⟨1, 1⟩) ⟨2, 2⟩)
        ([] : List Move)).1 = some true
    ∧ choose_destination toyEngine ⟨2, 2⟩ ⟨[], .WithOrigin (.SquarePiece ⟨1, 1⟩)⟩
      = some ⟨[Move.Normal ⟨1, 1⟩ ⟨2, 2⟩ false], .NoIntent⟩ :=
  ⟨(c7_forced_nonpromoting toyEngine ⟨1, 1⟩ ⟨2, 2⟩ [] []
      (by decide) (by decide) (by decide)).1,
    (c7_forced_nonpromoting toyEngine ⟨1, 1⟩ ⟨2, 2⟩ [] []
      (by decide) (by decide) (by decide)).2.1,
    ((c7_forced_nonpromoting toyEngine ⟨1, 1⟩ ⟨2, 2⟩ [] []
      (by decide) (by decide) (by decide)).2.2
      [Move.Normal ⟨1, 1⟩ ⟨2, 2⟩ false] (by decide)).1⟩

/-- Claim C8: `choose_promote` is valid only in `WithDestination`, where it
applies the resolved move (a board move for a square origin, a drop for a
hand origin) to the position and resets the intent to `NoIntent`; invoked in
`NoIntent` or `WithOrigin` it panics (`none`) instead of silently changing
state. -/
theorem c8_choose_promote_contract {Pos : Type} (E : Engine Pos)
    (st : Session Pos) (promote : Bool) :
    (st.move_intent = .NoIntent → choose_promote E promote st = none)
    ∧ (∀ fromO, st.move_intent = .WithOrigin fromO →
        choose_promote E promote st = none)
    ∧ (∀ fromO toS p', st.move_intent = .WithDestination fromO toS →
        E.make_move st.position (resolve_move fromO toS promote) = some p' →
        choose_promote E promote st = some ⟨p', .NoIntent⟩) := by
  refine ⟨?_, ?_, ?_⟩
  · intro h
    rw [choose_promote, h]
  · intro fromO h
    rw [choose_promote, h]
  · intro fromO toS p' h hm
    rw [choose_promote, h]
    dsimp only
    rw [hm]

/-- Witness for C8 at the concrete engine. -/
theorem c8_choose_promote_contract_witness :
    choose_promote toyEngine true ⟨[], .NoIntent⟩ = none
    ∧ choose_promote toyEngine true ⟨[], .WithOrigin (.SquarePiece ⟨1, 1⟩)⟩ = none
    ∧ choose_promote toyEngine false
        ⟨[], .WithDestination (.SquarePiece ⟨1, 1⟩) ⟨2, 2⟩⟩
      = some ⟨[Move.Normal ⟨1, 1⟩ ⟨2, 2⟩ false], .NoIntent⟩ :=
  ⟨(c8_choose_promote_contract toyEngine ⟨[], .NoIntent⟩ true).1 rfl,
    (c8_choose_promote_contract toyEngine
      ⟨[], .WithOrigin (.SquarePiece ⟨1, 1⟩)⟩ true).2.1 (.SquarePiece ⟨1, 1⟩) rfl,
    (c8_choose_promote_contract toyEngine
      ⟨[], .WithDestination (.SquarePiece ⟨1, 1⟩) ⟨2, 2⟩⟩ false).2.2
      (.SquarePiece ⟨1, 1⟩) ⟨2, 2⟩ [Move.Normal ⟨1, 1⟩ ⟨2, 2⟩ false] rfl (by decide)⟩

/-- Claim C9: with the engine's undo failing exactly on an empty history and
removing the last move otherwise (the spec's PositionEngine contract), an
`Undo` event with nonempty history invokes the undo and drops the last
history entry, while an `Undo` event with empty history is a panic (`none`),
not a silent no-op. -/
theorem c9_undo_contract {Pos : Type} (E : Engine Pos) (st : Session Pos)
    (hnone : ∀ p, E.unmake_move p = none ↔ E.move_history p = [])
    (hdrop : ∀ p q, E.unmake_move p = some q →
      E.move_history q = (E.move_history p).dropLast) :
    (E.move_history st.position ≠ [] →
      ∃ st', update E .Undo st = some st'
        ∧ E.move_history st'.position = (E.move_history st.position).dropLast)
    ∧ (E.move_history st.position = [] → update E .Undo st = none) := by
  constructor
  · intro hne
    cases hu : E.unmake_move st.position with
    | none => exact absurd ((hnone st.position).mp hu) hne
    | some q =>
      refine ⟨⟨q, st.move_intent⟩, ?_, hdrop st.position q hu⟩
      rw [update, undo, hu]
  · intro hempty
    rw [update, undo, (hnone st.position).mpr hempty]

/-- Witness for C9 at the concrete engine. -/
theorem c9_undo_contract_witness :
    toyEngine.move_history [Move.Drop .Pawn ⟨4, 4⟩] ≠ []
    ∧ (∃ st', update toyEngine .Undo ⟨[Move.Drop .Pawn ⟨4, 4⟩], .NoIntent⟩ = some st'
        ∧ toyEngine.move_history st'.position
          = (toyEngine.move_history [Move.Drop .Pawn ⟨4, 4⟩]).dropLast)
    ∧ update toyEngine .Undo ⟨[], .NoIntent⟩ = none :=
  ⟨by decide,
    (c9_undo_contract toyEngine ⟨[Move.Drop .Pawn ⟨4, 4⟩], .NoIntent⟩
      toy_unmake_none_iff toy_unmake_dropLast).1 (by decide),
    (c9_undo_contract toyEngine ⟨[], .NoIntent⟩
      toy_unmake_none_iff toy_unmake_dropLast).2 (by decide)⟩

/-- Claim C10: the legality probes are partial in the intent state:
`can_move_to` answers `none` (a panic) outside `WithOrigin`, and
`must_promote` / `cant_promote` answer `none` outside `WithDestination`;
under the matching intent-state precondition (and a successful sandbox
construction, which the source assumes via `.unwrap()`), each probe is
total and returns a boolean. -/
theorem c10_probe_partiality {Pos : Type} (E : Engine Pos) (square : Square)
    (position : Pos) :
    ((can_move_to E .NoIntent square position).1 = none)
    ∧ (∀ fromO toS,
        (can_move_to E (.WithDestination fromO toS) square position).1 = none)
    ∧ (∀ fromO sb, create_sandbox E position = some sb →
        ∃ b, (can_move_to E (.WithOrigin fromO) square position).1 = some b)
    ∧ ((must_promote E .NoIntent position).1 = none)
    ∧ (∀ fromO, (must_promote E (.WithOrigin fromO) position).1 = none)
    ∧ (∀ fromO toS sb, create_sandbox E position = some sb →
        ∃ b, (must_promote E (.WithDestination fromO toS) position).1 = some b)
    ∧ ((cant_promote E .NoIntent position).1 = none)
    ∧ (∀ fromO, (cant_promote E (.WithOrigin fromO) position).1 = none)
    ∧ (∀ fromO toS sb, create_sandbox E position = some sb →
        ∃ b, (cant_promote E (.WithDestination fromO toS) position).1 = some b) := by
  refine ⟨?_, ?_, ?_, rfl, fun _ => rfl, ?_, rfl, fun _ => rfl, ?_⟩
  · rw [can_move_to]
    cases hc : create_sandbox E position <;> rfl
  · intro fromO toS
    rw [can_move_to]
    cases hc : create_sandbox E position <;> rfl
  · intro fromO sb hsb
    cases fromO with
    | SquarePiece fromSq =>
      exact ⟨_, by rw [can_move_to_square_eq, hsb, Option.map_some']⟩
    | HeldPiece piece_type =>
      exact ⟨_, by rw [can_move_to_drop_eq, hsb, Option.map_some']⟩
  · intro fromO toS sb hsb
    cases fromO with
    | SquarePiece fromSq =>
      exact ⟨_, by rw [must_promote_square_eq, hsb, Option.map_some']⟩
    | HeldPiece piece_type => exact ⟨false, rfl⟩
  · intro fromO toS sb hsb
    cases fromO with
    | SquarePiece fromSq =>
      exact ⟨_, by rw [cant_promote_square_eq, hsb, Option.map_some']⟩
    | HeldPiece piece_type => exact ⟨true, rfl⟩

/-- Witness for C10 at the concrete engine. -/
theorem c10_probe_partiality_witness :
    ((can_move_to toyEngine .NoIntent ⟨2, 2⟩ ([] : List Move)).1 = none)
    ∧ ((can_move_to toyEngine (.WithDestination (.SquarePiece ⟨1, 1⟩) ⟨2, 2⟩) ⟨2, 2⟩
        ([] : List Move)).1 = none)
    ∧ (∃ b, (can_move_to toyEngine (.WithOrigin (.SquarePiece ⟨1, 1⟩)) ⟨2, 2⟩
        ([] : List Move)).1 = some b)
    ∧ ((must_promote toyEngine .NoIntent ([] : List Move)).1 = none)
    ∧ ((must_promote toyEngine (.WithOrigin (.SquarePiece ⟨1, 1⟩))
        ([] : List Move)).1 = none)
    ∧ (∃ b, (must_promote toyEngine (.WithDestination (.SquarePiece ⟨1, 1⟩) ⟨2, 2⟩)
        ([] : List Move)).1 = some b)
    ∧ ((cant_promote toyEngine .NoIntent ([] : List Move)).1 = none)
    ∧ ((cant_promote toyEngine (.WithOrigin (.SquarePiece ⟨1, 1⟩))
        ([] : List Move)).1 = none)
    ∧ (∃ b, (cant_promote toyEngine (.WithDestination (.SquarePiece ⟨1, 1⟩) ⟨2, 2⟩)
        ([] : List Move)).1 = some b) :=
  ⟨(c10_probe_partiality toyEngine ⟨2, 2⟩ []).1,
    (c10_probe_partiality toyEngine ⟨2, 2⟩ []).2.1 (.SquarePiece ⟨1, 1⟩) ⟨2, 2⟩,
    (c10_probe_partiality toyEngine ⟨2, 2⟩ []).2.2.1 (.SquarePiece ⟨1, 1⟩) []
      (by decide),
    (c10_probe_partiality toyEngine ⟨2, 2⟩ []).2.2.2.1,
    (c10_probe_partiality toyEngine ⟨2, 2⟩ []).2.2.2.2.1 (.SquarePiece ⟨1, 1⟩),
    (c10_probe_partiality toyEngine ⟨2, 2⟩ []).2.2.2.2.2.1 (.SquarePiece ⟨1, 1⟩)
      ⟨2, 2⟩ [] (by decide),
    (c10_probe_partiality toyEngine ⟨2, 2⟩ []).2.2.2.2.2.2.1,
    (c10_probe_partiality toyEngine ⟨2, 2⟩ []).2.2.2.2.2.2.2.1 (.SquarePiece ⟨1, 1⟩),
    (c10_probe_partiality toyEngine ⟨2, 2⟩ []).2.2.2.2.2.2.2.2 (.SquarePiece ⟨1, 1⟩)
      ⟨2, 2⟩ [] (by decide)⟩

end Shogi
